import Mathlib

/-!
Verification of the WAV silence trimmer (`src/app.py`).

The development shallowly embeds the numeric core of the program:

* `detect_silence` (source lines 6–52): silence detection returning trim bounds;
* `apply_fade` (source lines 54–82): in-place linear fade-in/fade-out;
* `process_wav_file` (source lines 84–110): per-file pipeline at the level of
  decoded sample data;
* `process_folder` (source lines 112–135): batch loop over a directory listing.

Modelling conventions:

* Sample values, sample rates and durations are embedded as exact rationals
  `ℚ` in place of IEEE doubles.  The decibel classification
  `20 * log10 (m / (max + eps) + eps) < threshold_db` is embedded through the
  strict monotonicity of `log10`: since the argument `m / (max + eps) + eps`
  is always positive, the comparison is equivalent to
  `m / (max + eps) + eps < 10 ^ (threshold_db / 20)`, so the detector takes
  the *threshold ratio* `10 ^ (threshold_db / 20)` as its parameter
  (`1 / 1000` for the default `-60` dB).  This keeps every definition
  executable over `ℚ`.
* A NumPy operation that raises (e.g. `np.max` of a zero-size array, or an
  in-place multiplication whose operand shapes do not broadcast) is modelled
  by `Option`, with `none` standing for the raised exception.
* NumPy in-place semantics: every operation used by `detect_silence`
  (`np.mean`, `np.abs`, `np.max`, `np.log10`, comparison) allocates a fresh
  array, so the caller's buffer is returned unchanged by the state-passing
  variant `detect_silence_state`.  The only in-place writes in the program
  are the `*=` statements of `apply_fade`, which are modelled by rebuilding
  the written region of the list.
-/

namespace WavTrim

set_option maxRecDepth 100000

/-- A decoded sample buffer: a flat list of samples (mono) or a list of
frames, each frame holding one sample per channel (stereo / multi-channel).
The source distinguishes the two cases by `len(audio_data.shape) > 1`. -/
inductive Audio where
  | mono (samples : List ℚ)
  | multi (frames : List (List ℚ))
deriving DecidableEq

/-- Number of frames of a buffer (`len(audio_data)` in the source). -/
def audioLength : Audio → ℕ
  | Audio.mono xs => xs.length
  | Audio.multi frames => frames.length

/-- Python `int()` applied to a rational: truncation toward zero. -/
def pyTrunc (q : ℚ) : ℤ := if 0 ≤ q then ⌊q⌋ else ⌈q⌉

/-- `np.finfo(float).eps`: the double-precision machine epsilon `2 ^ (-52)`,
which is exactly representable as a rational (source line 30). -/
def eps : ℚ := 1 / 2 ^ 52

/-- `np.abs` on one sample (kernel-reducible form of `|x|`). -/
def npAbs (x : ℚ) : ℚ := if x < 0 then -x else x

/-- Binary maximum in kernel-reducible form. -/
def rmax (a b : ℚ) : ℚ := if a < b then b else a

/-- `np.max` over a 1-D array.  NumPy raises `ValueError` on a zero-size
array ("zero-size array to reduction operation maximum which has no
identity"), modelled as `none` (source line 27). -/
def npMax : List ℚ → Option ℚ
  | [] => none
  | x :: xs => some (xs.foldl rmax x)

/-- Index of the first `false` entry of a mask.  This models the forward
loop of source lines 38–42, which breaks at the first non-silent sample. -/
def firstFalseIdx : List Bool → Option ℕ
  | [] => none
  | b :: rest => if b then (firstFalseIdx rest).map (· + 1) else some 0

/-- Index of the last `false` entry of a mask.  This models the backward
loop of source lines 46–50, which breaks at the last non-silent sample. -/
def lastFalseIdx : List Bool → Option ℕ
  | [] => none
  | b :: rest =>
    match lastFalseIdx rest with
    | some j => some (j + 1)
    | none => if b then none else some 0

/-- Leading trim bound (source lines 37–42): `start_trim` stays `0` unless
the first non-silent index `i` satisfies `i > min_silence_duration * sr`,
in which case `start_trim = int(i - min_silence_duration * sr)`. -/
def startTrimOf (mask : List Bool) (ms : ℚ) : ℤ :=
  match firstFalseIdx mask with
  | none => 0
  | some i => if ms < (i : ℚ) then pyTrunc ((i : ℚ) - ms) else 0

/-- Trailing trim bound (source lines 45–50): `end_trim` stays `len(audio)`
unless the last non-silent index `i` satisfies
`len(audio) - i > min_silence_duration * sr`, in which case
`end_trim = int(i + min_silence_duration * sr)`. -/
def endTrimOf (mask : List Bool) (n : ℕ) (ms : ℚ) : ℤ :=
  match lastFalseIdx mask with
  | none => (n : ℤ)
  | some i => if ms < (n : ℚ) - (i : ℚ) then pyTrunc ((i : ℚ) + ms) else (n : ℤ)

/-- The per-sample silence mask of source lines 26–34, for a mono signal:
`db < threshold_db` rewritten through monotonicity of `log10` as
`|x| / (max + eps) + eps < threshold_amp` (see the module docstring).
Empty input (where `np.max` would raise) yields the empty mask. -/
def silenceMask (xs : List ℚ) (threshold_amp : ℚ) : List Bool :=
  match npMax (xs.map fun x => npAbs x) with
  | none => []
  | some max_magnitude =>
    (xs.map fun x => npAbs x).map fun m =>
      decide (m / (max_magnitude + eps) + eps < threshold_amp)

/-- Silence detection on the (already mono) working signal: source
lines 26–52.  `none` models the `ValueError` raised by `np.max` on a
zero-size array. -/
def detect_silence_core (xs : List ℚ) (sr : ℚ) (threshold_amp : ℚ)
    (min_silence_duration : ℚ) : Option (ℤ × ℤ) :=
  match npMax (xs.map fun x => npAbs x) with
  | none => none
  | some max_magnitude =>
    let mask := (xs.map fun x => npAbs x).map fun m =>
      decide (m / (max_magnitude + eps) + eps < threshold_amp)
    some (startTrimOf mask (min_silence_duration * sr),
          endTrimOf mask xs.length (min_silence_duration * sr))

/-- Collapse of a multi-channel buffer to mono by `np.mean(audio, axis=1)`
(source lines 22–23); a mono buffer is used as is.  The mean of a frame is
the sum of its channel values divided by the channel count. -/
def collapseToMono : Audio → List ℚ
  | Audio.mono xs => xs
  | Audio.multi frames => frames.map fun fr => fr.sum / (fr.length : ℚ)

/-- `detect_silence` (source lines 6–52): collapse to mono, classify each
sample against the threshold, and return `(start_trim, end_trim)`.
`none` models the exception raised on an empty buffer. -/
def detect_silence (audio : Audio) (sr : ℚ) (threshold_amp : ℚ)
    (min_silence_duration : ℚ) : Option (ℤ × ℤ) :=
  detect_silence_core (collapseToMono audio) sr threshold_amp
    min_silence_duration

/-- State-passing view of `detect_silence`: the second component is the
caller's array after the call.  Every NumPy operation in the function body
allocates a new array (the line-23 `np.mean` result is bound to a *local*
name only), so the caller-visible buffer is the unchanged input. -/
def detect_silence_state (audio : Audio) (sr : ℚ) (threshold_amp : ℚ)
    (min_silence_duration : ℚ) : Option (ℤ × ℤ) × Audio :=
  (detect_silence audio sr threshold_amp min_silence_duration, audio)

/-- `np.linspace a b num`: `num` evenly spaced points from `a` to `b`
inclusive (source lines 69–70).  As in NumPy, `num = 0` gives the empty
array and `num = 1` gives `[a]` alone. -/
def npLinspace (a b : ℚ) (num : ℕ) : List ℚ :=
  if num = 0 then []
  else if num = 1 then [a]
  else (List.range num).map fun (k : ℕ) => a + (b - a) * (k : ℚ) / ((num : ℚ) - 1)

/-- In-place elementwise multiplication `view *= ramp` of a 1-D array view
by a 1-D ramp.  For the shapes arising in `apply_fade` NumPy broadcasting
succeeds exactly when the lengths agree and otherwise raises `ValueError`
(in particular a zero-length ramp against a non-empty view), modelled as
`none`. -/
def inplaceMulList (view ramp : List ℚ) : Option (List ℚ) :=
  if view.length = ramp.length then
    some (List.zipWith (fun x r => x * r) view ramp)
  else none

/-- In-place multiplication of a 2-D view (frames × channels) by a column
ramp `ramp[:, np.newaxis]` (source lines 75–76): each frame is scaled by
its ramp value identically across all channels.  Shape mismatch raises,
as above. -/
def inplaceMulFrames (view : List (List ℚ)) (ramp : List ℚ) :
    Option (List (List ℚ)) :=
  if view.length = ramp.length then
    some (List.zipWith (fun fr r => fr.map fun x => x * r) view ramp)
  else none

/-- Python slice `a[-fl:]`: for `fl = 0` the slice is `a[0:]`, the *whole*
array (`-0 == 0`), otherwise the last `min fl (length a)` entries. -/
def pyLastSlice (fl : ℕ) (xs : List α) : List α :=
  if fl = 0 then xs else xs.drop (xs.length - fl)

/-- `apply_fade` on a flat mono buffer (source lines 79–80):
`audio[:fl] *= fade_in` then `audio[-fl:] *= fade_out`, each write-back
replacing the written region of the array. -/
def apply_fade_mono (xs : List ℚ) (fade_length : ℕ) : Option (List ℚ) :=
  let fade_in := npLinspace 0 1 fade_length
  let fade_out := npLinspace 1 0 fade_length
  (inplaceMulList (xs.take fade_length) fade_in).bind fun head =>
    let a1 := head ++ xs.drop fade_length
    (inplaceMulList (pyLastSlice fade_length a1) fade_out).map fun tail =>
      a1.take (a1.length - (pyLastSlice fade_length a1).length) ++ tail

/-- `apply_fade` on a frames × channels buffer (source lines 75–76). -/
def apply_fade_multi (frames : List (List ℚ)) (fade_length : ℕ) :
    Option (List (List ℚ)) :=
  let fade_in := npLinspace 0 1 fade_length
  let fade_out := npLinspace 1 0 fade_length
  (inplaceMulFrames (frames.take fade_length) fade_in).bind fun head =>
    let a1 := head ++ frames.drop fade_length
    (inplaceMulFrames (pyLastSlice fade_length a1) fade_out).map fun tail =>
      a1.take (a1.length - (pyLastSlice fade_length a1).length) ++ tail

/-- `apply_fade` (source lines 54–82): `fade_length = int(fade_duration *
sr)`, two linear ramps, and the two in-place multiplications, dispatching
on the shape of the buffer.  `Int.toNat` is harmless here because the
modelled uses all have `fade_duration * sr ≥ 0` (a negative Python length
would index from the end instead).  `none` models a raised broadcast
`ValueError`. -/
def apply_fade (audio : Audio) (sr : ℚ) (fade_duration : ℚ) : Option Audio :=
  let fade_length := (pyTrunc (fade_duration * sr)).toNat
  match audio with
  | Audio.multi frames => (apply_fade_multi frames fade_length).map Audio.multi
  | Audio.mono xs => (apply_fade_mono xs fade_length).map Audio.mono

/-- `audio_data.copy()` (source line 101) allocates a fresh array with the
same contents; at value level it is the identity. -/
def numpyCopy (audio : Audio) : Audio := audio

/-- Python slice `audio_data[s:e]` for the nonnegative bounds produced by
`detect_silence` (Python clamps both bounds to the array length). -/
def pySlice (s e : ℤ) : Audio → Audio
  | Audio.mono xs => Audio.mono ((xs.take e.toNat).drop s.toNat)
  | Audio.multi frames => Audio.multi ((frames.take e.toNat).drop s.toNat)

/-- Default threshold ratio `10 ^ (-60 / 20) = 1 / 1000`: the exact image
of the dB default `threshold_db = -60` under the monotone rewriting of the
classification (module docstring). -/
def defaultThresholdAmp : ℚ := 1 / 1000

/-- `process_wav_file` (source lines 84–110) at the level of decoded data:
detect silence on a copy of the buffer, slice the original by the returned
bounds, fade the slice.  Decoding, encoding and the subtype passthrough of
line 110 are thin I/O wrappers outside the numeric model; the result is
the pair of the trim bounds and the processed buffer — exactly the data
written to the output file.  The third parameter is
`max_silence_duration` (default `0.5` at the call site), accepted and, as
in the source, never read. -/
def process_wav_file (audio : Audio) (sr : ℚ)
    (max_silence_duration : ℚ) : Option ((ℤ × ℤ) × Audio) :=
  (detect_silence (numpyCopy audio) sr defaultThresholdAmp (1 / 10)).bind
    fun bounds =>
      let trimmed := pySlice bounds.1 bounds.2 audio
      (apply_fade trimmed sr (1 / 4)).map fun processed => (bounds, processed)

/-- One directory entry: the file's name together with the decoded
contents `(buffer, sample rate)` that `sf.read` would return, or `none`
when the file cannot be read or parsed (`sf.read` raises). -/
structure WavFolderEntry where
  name : String
  decoded : Option (Audio × ℚ)
deriving DecidableEq

/-- Name filter of source line 127: `filename.lower().endswith('.wav')`,
computed on the character sequence of the name (lower-case each character,
then test for the suffix `.wav`). -/
def isWavName (name : String) : Bool :=
  List.isSuffixOf ".wav".data (name.data.map Char.toLower)

/-- One run of `process_wav_file(input_path, output_path)` inside the
`try` of source lines 131–135: a decoding failure or any processing
failure yields `none` (the exception reaching the per-file handler);
success carries the data written for that file (processed buffer and the
preserved sample rate). -/
def tryProcessFile (f : WavFolderEntry) : Option (Audio × ℚ) :=
  f.decoded.bind fun d =>
    (process_wav_file d.1 d.2 (1 / 2)).map fun r => (r.2, d.2)

/-- A per-file console report: success (with the output written for that
file) or failure, keyed by filename (source lines 133 and 135). -/
inductive BatchMsg where
  | success (name : String) (output : Audio × ℚ)
  | failure (name : String)
deriving DecidableEq

/-- `process_folder` (source lines 112–135): walk the directory listing in
order, skip names not ending in `.wav` (case-insensitively), process each
matching file inside a `try`, and emit one message per matching file; a
failure never stops the loop.  Output-directory creation (lines 122–123)
is filesystem I/O outside the model. -/
def process_folder (files : List WavFolderEntry) : List BatchMsg :=
  files.filterMap fun f =>
    if isWavName f.name then
      some (match tryProcessFile f with
            | some out => BatchMsg.success f.name out
            | none => BatchMsg.failure f.name)
    else none

attribute [local semireducible] Rat.add Rat.mul Rat.inv Rat.sub

/-! ### Helper lemmas -/

theorem pyTrunc_of_nonneg {q : ℚ} (h : 0 ≤ q) : pyTrunc q = ⌊q⌋ := if_pos h

theorem silenceMask_length (xs : List ℚ) (tr : ℚ) :
    (silenceMask xs tr).length = xs.length := by
  cases xs with
  | nil => rfl
  | cons x r => simp [silenceMask, npMax]

theorem detect_silence_core_eq_of_ne_nil {xs : List ℚ} (h : xs ≠ [])
    (sr tr msd : ℚ) :
    detect_silence_core xs sr tr msd =
      some (startTrimOf (silenceMask xs tr) (msd * sr),
            endTrimOf (silenceMask xs tr) xs.length (msd * sr)) := by
  cases xs with
  | nil => exact absurd rfl h
  | cons x r => simp [detect_silence_core, silenceMask, npMax]

theorem firstFalseIdx_eq_none_iff (l : List Bool) :
    firstFalseIdx l = none ↔ ∀ b ∈ l, b = true := by
  induction l with
  | nil => simp [firstFalseIdx]
  | cons b rest ih => cases b <;> simp [firstFalseIdx, ih]

theorem lastFalseIdx_eq_none_iff (l : List Bool) :
    lastFalseIdx l = none ↔ ∀ b ∈ l, b = true := by
  induction l with
  | nil => simp [lastFalseIdx]
  | cons b rest ih =>
    cases hrest : lastFalseIdx rest with
    | some j =>
      simp only [lastFalseIdx, hrest]
      constructor
      · intro hc; exact absurd hc (by simp)
      · intro hall
        have hnone : lastFalseIdx rest = none :=
          ih.2 fun x hx => hall x (List.mem_cons_of_mem _ hx)
        rw [hnone] at hrest
        exact absurd hrest (by simp)
    | none =>
      have hall := (ih).1 hrest
      cases b with
      | false => simp [lastFalseIdx, hrest]
      | true =>
        simp only [lastFalseIdx, hrest]
        constructor
        · intro _ x hx
          rcases List.mem_cons.1 hx with h1 | h2
          · exact h1
          · exact hall x h2
        · intro _; rfl

theorem firstFalseIdx_spec (l : List Bool) (i : ℕ)
    (h : firstFalseIdx l = some i) :
    i < l.length ∧ l.getD i true = false := by
  induction l generalizing i with
  | nil => simp [firstFalseIdx] at h
  | cons b rest ih =>
    cases b with
    | false =>
      simp [firstFalseIdx] at h
      subst h
      simp
    | true =>
      simp only [firstFalseIdx, if_true, Option.map_eq_some'] at h
      obtain ⟨j, hj, hji⟩ := h
      have hji' : j + 1 = i := hji
      subst hji'
      have H := ih j hj
      refine ⟨Nat.succ_lt_succ H.1, ?_⟩
      simp only [List.getD_cons_succ]
      exact H.2

theorem lastFalseIdx_spec (l : List Bool) (j : ℕ)
    (h : lastFalseIdx l = some j) :
    j < l.length ∧ l.getD j true = false ∧
      ∀ k, j < k → k < l.length → l.getD k true = true := by
  induction l generalizing j with
  | nil => simp [lastFalseIdx] at h
  | cons b rest ih =>
    cases hrest : lastFalseIdx rest with
    | some j' =>
      simp only [lastFalseIdx, hrest] at h
      cases h
      have H := ih j' hrest
      refine ⟨Nat.succ_lt_succ H.1, by simpa using H.2.1, ?_⟩
      intro k hk hklen
      cases k with
      | zero => omega
      | succ k' =>
        simp only [List.getD_cons_succ]
        exact H.2.2 k' (Nat.lt_of_succ_lt_succ hk)
          (Nat.lt_of_succ_lt_succ (by simpa using hklen))
    | none =>
      simp only [lastFalseIdx, hrest] at h
      have hall := (lastFalseIdx_eq_none_iff rest).1 hrest
      cases b with
      | true => simp at h
      | false =>
        simp at h
        subst h
        refine ⟨by simp, by simp, ?_⟩
        intro k hk hklen
        cases k with
        | zero => omega
        | succ k' =>
          simp only [List.getD_cons_succ]
          have hmem : rest.getD k' true ∈ rest := by
            have hlt : k' < rest.length := by simpa using hklen
            simpa [List.getD_eq_getElem?_getD, List.getElem?_eq_getElem hlt]
              using List.getElem_mem hlt
          exact hall _ hmem

theorem firstFalseIdx_le_lastFalseIdx (l : List Bool) (i j : ℕ)
    (hi : firstFalseIdx l = some i) (hj : lastFalseIdx l = some j) :
    i ≤ j := by
  by_contra hij
  have Hi := firstFalseIdx_spec l i hi
  have Hj := lastFalseIdx_spec l j hj
  have := Hj.2.2 i (Nat.lt_of_not_le (fun hle => hij hle)) Hi.1
  rw [Hi.2] at this
  cases this

theorem firstFalseIdx_of_silenceMask_ne_nil {xs : List ℚ} {tr : ℚ} {i : ℕ}
    (h : firstFalseIdx (silenceMask xs tr) = some i) : xs ≠ [] := by
  intro he
  subst he
  simp [silenceMask, npMax, firstFalseIdx] at h

theorem lastFalseIdx_of_silenceMask_ne_nil {xs : List ℚ} {tr : ℚ} {j : ℕ}
    (h : lastFalseIdx (silenceMask xs tr) = some j) : xs ≠ [] := by
  intro he
  subst he
  simp [silenceMask, npMax, lastFalseIdx] at h

/-! ### Claims C1 – C4 -/

/-- C1, counterexample.  The claim states that when `length - 1 - j` does
*not* exceed `min_silence_duration * sr` (here `3 - 1 - 1 = 1 ≤ 1`), the
detector returns `end_trim = length = 3`.  The code tests
`len(audio_data) - i > min_silence_duration * sr` (source line 48), i.e.
`3 - 1 = 2 > 1`, and returns `end_trim = int(1 + 1) = 2` instead. -/
theorem detect_silence_endTrim_boundary_cex :
    lastFalseIdx (silenceMask [0, 1, 0] (1 / 1000)) = some 1 ∧
    ¬ ((1 : ℚ) * 1 < (3 : ℚ) - 1 - 1) ∧
    (detect_silence (Audio.mono [0, 1, 0]) 1 (1 / 1000) 1).map Prod.snd =
      some 2 ∧ (2 : ℤ) ≠ 3 := by decide

/-- C1 (amended): for a buffer whose last non-silent sample (per the dB
classification) is at index `j`, the detector returns
`end_trim = int(j + min_silence_duration * sr)` when `length - j` (not
`length - 1 - j`) exceeds `min_silence_duration * sr`, and
`end_trim = length` otherwise. -/
theorem detect_silence_endTrim_amended (xs : List ℚ) (sr tr msd : ℚ) (j : ℕ)
    (h : lastFalseIdx (silenceMask xs tr) = some j) :
    (detect_silence (Audio.mono xs) sr tr msd).map Prod.snd =
      some (if msd * sr < (xs.length : ℚ) - (j : ℚ) then
              pyTrunc ((j : ℚ) + msd * sr)
            else (xs.length : ℤ)) := by
  have hne : xs ≠ [] := lastFalseIdx_of_silenceMask_ne_nil h
  have hcore : detect_silence (Audio.mono xs) sr tr msd =
      detect_silence_core xs sr tr msd := rfl
  rw [hcore, detect_silence_core_eq_of_ne_nil hne]
  simp [endTrimOf, h]

/-- C1, witness for the amended theorem at a concrete input: buffer
`[0, 1, 0, 0, 0]`, `sr = 1`, `min_silence_duration = 2`; the last
non-silent index is `1` and `5 - 1 = 4 > 2`, so `end_trim = int(1+2) = 3`. -/
theorem detect_silence_endTrim_amended_witness :
    (detect_silence (Audio.mono [0, 1, 0, 0, 0]) 1 (1 / 1000) 2).map Prod.snd =
      some (if (2 : ℚ) * 1 < ((5 : ℕ) : ℚ) - ((1 : ℕ) : ℚ) then
              pyTrunc (((1 : ℕ) : ℚ) + 2 * 1)
            else ((5 : ℕ) : ℤ)) :=
  detect_silence_endTrim_amended [0, 1, 0, 0, 0] 1 (1 / 1000) 2 1 (by decide)

/-- C2 (confirmed): for a buffer whose first non-silent sample (per the dB
classification) is at index `i`, the detector returns
`start_trim = ⌊i - min_silence_duration * sr⌋` when `i` exceeds
`min_silence_duration * sr`, and `start_trim = 0` otherwise.  (The claim's
single-non-silent-sample instance is the case `i = k` of this statement.) -/
theorem detect_silence_startTrim (xs : List ℚ) (sr tr msd : ℚ) (i : ℕ)
    (h : firstFalseIdx (silenceMask xs tr) = some i) :
    (detect_silence (Audio.mono xs) sr tr msd).map Prod.fst =
      some (if msd * sr < (i : ℚ) then ⌊(i : ℚ) - msd * sr⌋ else 0) := by
  have hne : xs ≠ [] := firstFalseIdx_of_silenceMask_ne_nil h
  have hcore : detect_silence (Audio.mono xs) sr tr msd =
      detect_silence_core xs sr tr msd := rfl
  rw [hcore, detect_silence_core_eq_of_ne_nil hne]
  simp only [Option.map_some', startTrimOf, h, Option.some.injEq]
  split
  case isTrue hlt => exact pyTrunc_of_nonneg (by linarith)
  case isFalse => rfl

/-- C2, witness at a concrete input: buffer `[0, 0, 0, 1]`, `sr = 1`,
`min_silence_duration = 2`; first non-silent index `3 > 2`, so
`start_trim = ⌊3 - 2⌋ = 1`. -/
theorem detect_silence_startTrim_witness :
    (detect_silence (Audio.mono [0, 0, 0, 1]) 1 (1 / 1000) 2).map Prod.fst =
      some (if (2 : ℚ) * 1 < ((3 : ℕ) : ℚ) then ⌊((3 : ℕ) : ℚ) - 2 * 1⌋ else 0) :=
  detect_silence_startTrim [0, 0, 0, 1] 1 (1 / 1000) 2 3 (by decide)

/-- C3 (confirmed): on a non-empty buffer in which every sample is
classified silent, the detector returns `(0, length)` — bounds spanning
the whole buffer, no trimming. -/
theorem detect_silence_all_silent (xs : List ℚ) (sr tr msd : ℚ)
    (hne : xs ≠ []) (hall : ∀ b ∈ silenceMask xs tr, b = true) :
    detect_silence (Audio.mono xs) sr tr msd = some (0, (xs.length : ℤ)) := by
  have hcore : detect_silence (Audio.mono xs) sr tr msd =
      detect_silence_core xs sr tr msd := rfl
  rw [hcore, detect_silence_core_eq_of_ne_nil hne]
  have hfirst : firstFalseIdx (silenceMask xs tr) = none :=
    (firstFalseIdx_eq_none_iff _).2 hall
  have hlast : lastFalseIdx (silenceMask xs tr) = none :=
    (lastFalseIdx_eq_none_iff _).2 hall
  simp [startTrimOf, endTrimOf, hfirst, hlast]

/-- C3, witness: the all-zero buffer `[0, 0]` is classified all-silent at
the default threshold, and the bounds span the whole buffer. -/
theorem detect_silence_all_silent_witness :
    detect_silence (Audio.mono [0, 0]) 8 (1 / 1000) (1 / 10) =
      some (0, ((List.length [(0 : ℚ), 0] : ℕ) : ℤ)) :=
  detect_silence_all_silent [0, 0] 8 (1 / 1000) (1 / 10) (by decide)
    (by decide)

/-- C4 (code bug): on the empty buffer the detector does *not* fall back
to "no trim" — `np.max` raises `ValueError` on a zero-size array (source
line 27), so `detect_silence` raises instead of returning `(0, 0)`.
The spec requires that a fully silent or empty buffer must not crash. -/
theorem detect_silence_empty_raises (sr tr msd : ℚ) :
    detect_silence (Audio.mono []) sr tr msd = none := rfl

/-! ### Claims C7, C8 -/

/-- C7 (confirmed): `detect_silence` never mutates the caller's buffer.
Every NumPy operation in its body (`np.mean`, `np.abs`, `np.max`,
`np.log10`, `<`) returns a newly allocated array, and the collapsed mono
signal of line 23 is bound to a local name only; the function contains no
in-place write, so in the state-passing model the caller-visible buffer
after the call is the input, element for element. -/
theorem detect_silence_preserves_buffer (audio : Audio) (sr tr msd : ℚ) :
    (detect_silence_state audio sr tr msd).2 = audio := rfl

/-- C8 (confirmed): `max_silence_duration` is dead.  Two runs of
`process_wav_file` on the same decoded input that differ only in
`max_silence_duration` return identical results — the same trim bounds
and the same processed sample data (hence identical output files).  The
parameter is bound in the signature (source line 84) and never read. -/
theorem process_wav_file_max_silence_dead (audio : Audio) (sr m₁ m₂ : ℚ) :
    process_wav_file audio sr m₁ = process_wav_file audio sr m₂ := rfl

/-! ### Claim C10 -/

theorem startTrimOf_eq_of_some (mask : List Bool) (ms : ℚ) (i : ℕ)
    (h : firstFalseIdx mask = some i) :
    startTrimOf mask ms =
      if ms < (i : ℚ) then pyTrunc ((i : ℚ) - ms) else 0 := by
  unfold startTrimOf
  rw [h]

theorem startTrimOf_eq_of_none (mask : List Bool) (ms : ℚ)
    (h : firstFalseIdx mask = none) : startTrimOf mask ms = 0 := by
  unfold startTrimOf
  rw [h]

theorem endTrimOf_eq_of_some (mask : List Bool) (n : ℕ) (ms : ℚ) (j : ℕ)
    (h : lastFalseIdx mask = some j) :
    endTrimOf mask n ms =
      if ms < (n : ℚ) - (j : ℚ) then pyTrunc ((j : ℚ) + ms) else (n : ℤ) := by
  unfold endTrimOf
  rw [h]

theorem endTrimOf_eq_of_none (mask : List Bool) (n : ℕ) (ms : ℚ)
    (h : lastFalseIdx mask = none) : endTrimOf mask n ms = (n : ℤ) := by
  unfold endTrimOf
  rw [h]

theorem getD_mem_of_lt {l : List Bool} {k : ℕ} (h : k < l.length) :
    l.getD k true ∈ l := by
  induction l generalizing k with
  | nil => simp at h
  | cons b rest ih =>
    cases k with
    | zero => simp
    | succ k' =>
      simp only [List.getD_cons_succ]
      exact List.mem_cons_of_mem _ (ih (by simpa using h))

theorem collapseToMono_length (audio : Audio) :
    (collapseToMono audio).length = audioLength audio := by
  cases audio <;> simp [collapseToMono, audioLength]

/-- C10, counterexample.  With buffer `[1, 0, 0]`, `sr = 5 > 0` and
`min_silence_duration = 1/10 ≥ 0` (so `ms = 1/2 < 1`), the detector
returns `(0, 0)`: `start_trim < end_trim` fails, the retained slice
`buffer[0:0]` is empty, and the (only) non-silent sample at index `0` is
trimmed away even though `lastFalseIdx = some 0`. -/
theorem detect_silence_bounds_collapse_cex :
    (0 : ℚ) < 5 ∧ (0 : ℚ) ≤ 1 / 10 ∧
    detect_silence (Audio.mono [1, 0, 0]) 5 (1 / 1000) (1 / 10) =
      some (0, 0) ∧
    lastFalseIdx (silenceMask [1, 0, 0] (1 / 1000)) = some 0 := by decide

/-- C10 (amended): under the additional hypothesis
`1 ≤ min_silence_duration * sr` (the minimum-silence window is at least
one sample), the bounds satisfy `0 ≤ start_trim < end_trim ≤ length`, so
the retained slice is non-empty and within bounds, the leading bound never
passes the first non-silent sample, and the trailing bound keeps the last
non-silent sample strictly inside the retained region. -/
theorem detect_silence_bounds_amended (audio : Audio) (sr tr msd : ℚ)
    (hne : 0 < audioLength audio) (hsr : 0 < sr) (hmsd : 0 ≤ msd)
    (hms : 1 ≤ msd * sr) :
    ∃ s e : ℤ, detect_silence audio sr tr msd = some (s, e) ∧
      0 ≤ s ∧ s < e ∧ e ≤ (audioLength audio : ℤ) ∧
      (∀ i, firstFalseIdx (silenceMask (collapseToMono audio) tr) = some i →
        s ≤ (i : ℤ)) ∧
      (∀ j, lastFalseIdx (silenceMask (collapseToMono audio) tr) = some j →
        (j : ℤ) < e) := by
  set xs := collapseToMono audio with hxs
  have hlen : xs.length = audioLength audio := collapseToMono_length audio
  have hxne : xs ≠ [] := by
    intro hnil
    rw [hnil] at hlen
    simp at hlen
    omega
  have hdet : detect_silence audio sr tr msd = detect_silence_core xs sr tr msd := rfl
  rw [hdet, detect_silence_core_eq_of_ne_nil hxne]
  set mask := silenceMask xs tr with hmask
  set ms := msd * sr with hmsdef
  have hms0 : (0 : ℚ) ≤ ms := le_trans zero_le_one hms
  refine ⟨_, _, rfl, ?_⟩
  rw [hlen]
  set n := audioLength audio with hn
  rcases hfirst : firstFalseIdx mask with _ | i
  · have hall : ∀ b ∈ mask, b = true := (firstFalseIdx_eq_none_iff mask).1 hfirst
    have hlast : lastFalseIdx mask = none := (lastFalseIdx_eq_none_iff mask).2 hall
    rw [startTrimOf_eq_of_none mask ms hfirst, endTrimOf_eq_of_none mask n ms hlast]
    refine ⟨le_refl 0, by exact_mod_cast hne, le_refl _, ?_, ?_⟩
    · intro i hi
      exact Option.noConfusion hi
    · intro j hj
      rw [hlast] at hj
      exact Option.noConfusion hj
  · have Hi := firstFalseIdx_spec mask i hfirst
    rcases hlast : lastFalseIdx mask with _ | j
    · have hall : ∀ b ∈ mask, b = true := (lastFalseIdx_eq_none_iff mask).1 hlast
      have hgd : mask.getD i true = true := hall _ (getD_mem_of_lt Hi.1)
      rw [Hi.2] at hgd
      exact absurd hgd (by simp)
    · have Hj := lastFalseIdx_spec mask j hlast
      have hij : i ≤ j := firstFalseIdx_le_lastFalseIdx mask i j hfirst hlast
      have hjn : j < mask.length := Hj.1
      have hmaskn : mask.length = n := by rw [hmask, silenceMask_length, hlen]
      rw [hmaskn] at hjn
      rw [startTrimOf_eq_of_some mask ms i hfirst,
          endTrimOf_eq_of_some mask n ms j hlast]
      have hstart_le :
          (if ms < (i : ℚ) then pyTrunc ((i : ℚ) - ms) else 0) ≤ (i : ℤ) := by
        split
        case isTrue hlt =>
          rw [pyTrunc_of_nonneg (by linarith)]
          calc ⌊(i : ℚ) - ms⌋ ≤ ⌊(i : ℚ)⌋ := Int.floor_le_floor (by linarith)
            _ = (i : ℤ) := Int.floor_natCast i
        case isFalse hge => exact Int.ofNat_nonneg i
      have hstart_nonneg :
          (0 : ℤ) ≤ (if ms < (i : ℚ) then pyTrunc ((i : ℚ) - ms) else 0) := by
        split
        case isTrue hlt =>
          rw [pyTrunc_of_nonneg (by linarith)]
          exact Int.le_floor.2 (by push_cast; linarith)
        case isFalse hge => exact le_refl 0
      have hend_gt : (j : ℤ) <
          (if ms < (n : ℚ) - (j : ℚ) then pyTrunc ((j : ℚ) + ms) else (n : ℤ)) := by
        split
        case isTrue hlt =>
          rw [pyTrunc_of_nonneg (by positivity)]
          have hle : ((j : ℤ) + 1 : ℤ) ≤ ⌊(j : ℚ) + ms⌋ :=
            Int.le_floor.2 (by push_cast; linarith)
          omega
        case isFalse hge => exact_mod_cast hjn
      have hend_le :
          (if ms < (n : ℚ) - (j : ℚ) then pyTrunc ((j : ℚ) + ms) else (n : ℤ)) ≤
            (n : ℤ) := by
        split
        case isTrue hlt =>
          rw [pyTrunc_of_nonneg (by positivity)]
          have hfl : ⌊(j : ℚ) + ms⌋ < (n : ℤ) := Int.floor_lt.2 (by push_cast; linarith)
          omega
        case isFalse hge => exact le_refl _
      refine ⟨hstart_nonneg, ?_, hend_le, ?_, ?_⟩
      · calc (if ms < (i : ℚ) then pyTrunc ((i : ℚ) - ms) else 0)
            ≤ (i : ℤ) := hstart_le
          _ ≤ (j : ℤ) := by exact_mod_cast hij
          _ < _ := hend_gt
      · intro i' hi'
        have hii : i = i' := by injection hi'
        subst hii
        exact hstart_le
      · intro j' hj'
        have hjj : j = j' := by injection hj'
        subst hjj
        exact hend_gt

/-- C10, witness for the amended theorem: buffer `[0, 1, 0]`, `sr = 10`,
`min_silence_duration = 1/10`, so `ms = 1`; the returned bounds are
well-formed and retain the non-silent sample. -/
theorem detect_silence_bounds_amended_witness :
    ∃ s e : ℤ,
      detect_silence (Audio.mono [0, 1, 0]) 10 (1 / 1000) (1 / 10) =
        some (s, e) ∧
      0 ≤ s ∧ s < e ∧ e ≤ (audioLength (Audio.mono [0, 1, 0]) : ℤ) ∧
      (∀ i, firstFalseIdx
          (silenceMask (collapseToMono (Audio.mono [0, 1, 0])) (1 / 1000)) =
            some i → s ≤ (i : ℤ)) ∧
      (∀ j, lastFalseIdx
          (silenceMask (collapseToMono (Audio.mono [0, 1, 0])) (1 / 1000)) =
            some j → (j : ℤ) < e) :=
  detect_silence_bounds_amended (Audio.mono [0, 1, 0]) 10 (1 / 1000) (1 / 10)
    (by decide) (by decide) (by decide) (by decide)

/-! ### Claim C5: fade envelope -/

theorem npLinspace_length (a b : ℚ) (num : ℕ) :
    (npLinspace a b num).length = num := by
  unfold npLinspace
  split
  case isTrue h0 => simp [h0]
  case isFalse h0 =>
    split
    case isTrue h1 => simp [h1]
    case isFalse h1 => rw [List.length_map, List.length_range]


theorem pyLastSlice_of_pos {fl : ℕ} (h : fl ≠ 0) (xs : List ℚ) :
    pyLastSlice fl xs = xs.drop (xs.length - fl) := by
  unfold pyLastSlice
  rw [if_neg h]

/-- Common skeleton of the two `apply_fade` branches, abstracted over the
elementwise action of a ramp value on one frame (`x * r` for a mono
sample, `fun x => x * r` mapped over the channels for a stereo frame). -/
def fadePipeline {α : Type} (mulOp : α → ℚ → α) (xs : List α) (fl : ℕ) :
    Option (List α) :=
  let fade_in := npLinspace 0 1 fl
  let fade_out := npLinspace 1 0 fl
  (if (xs.take fl).length = fade_in.length then
    some (List.zipWith mulOp (xs.take fl) fade_in)
   else none).bind fun head =>
    let a1 := head ++ xs.drop fl
    let sl := if fl = 0 then a1 else a1.drop (a1.length - fl)
    (if sl.length = fade_out.length then
      some (List.zipWith mulOp sl fade_out)
     else none).map fun tail => a1.take (a1.length - sl.length) ++ tail

theorem apply_fade_mono_eq_pipeline (xs : List ℚ) (fl : ℕ) :
    apply_fade_mono xs fl = fadePipeline (fun x r => x * r) xs fl := rfl

theorem apply_fade_multi_eq_pipeline (frames : List (List ℚ)) (fl : ℕ) :
    apply_fade_multi frames fl =
      fadePipeline (fun fr r => fr.map fun x => x * r) frames fl := rfl

theorem fadePipeline_spec {α : Type} (mulOp : α → ℚ → α) (xs : List α)
    (fl : ℕ) (h1 : 1 ≤ fl) (h2 : 2 * fl ≤ xs.length) :
    ∃ ys : List α, fadePipeline mulOp xs fl = some ys ∧
      ys.length = xs.length ∧
      (∀ k, k < fl →
        ys[k]? = (xs[k]?).map fun x => mulOp x ((npLinspace 0 1 fl).getD k 1)) ∧
      (∀ k, fl ≤ k → k < xs.length - fl → ys[k]? = xs[k]?) ∧
      (∀ k, xs.length - fl ≤ k →
        ys[k]? = (xs[k]?).map fun x =>
          mulOp x ((npLinspace 1 0 fl).getD (k - (xs.length - fl)) 1)) := by
  have hfin : (npLinspace 0 1 fl).length = fl := npLinspace_length 0 1 fl
  have hfout : (npLinspace 1 0 fl).length = fl := npLinspace_length 1 0 fl
  have htake : (xs.take fl).length = fl := by
    rw [List.length_take]
    omega
  have hZlen : (List.zipWith mulOp (xs.take fl) (npLinspace 0 1 fl)).length = fl := by
    rw [List.length_zipWith, htake, hfin, Nat.min_self]
  have hAlen :
      (List.zipWith mulOp (xs.take fl) (npLinspace 0 1 fl) ++ xs.drop fl).length =
        xs.length := by
    rw [List.length_append, hZlen, List.length_drop]
    omega
  set A := List.zipWith mulOp (xs.take fl) (npLinspace 0 1 fl) ++ xs.drop fl
    with hA
  have hDlen : (A.drop (A.length - fl)).length = fl := by
    rw [List.length_drop]
    omega
  have hAk : ∀ k, fl ≤ k → A[k]? = xs[k]? := by
    intro k hk
    rw [hA, List.getElem?_append_right (by rw [hZlen]; exact hk), hZlen,
        List.getElem?_drop]
    congr 1
    omega
  have heq : fadePipeline mulOp xs fl =
      some (A.take (A.length - fl) ++
        List.zipWith mulOp (A.drop (A.length - fl)) (npLinspace 1 0 fl)) := by
    simp only [fadePipeline]
    rw [if_pos (htake.trans hfin.symm)]
    simp only [Option.some_bind]
    rw [if_neg (by omega : ¬ fl = 0)]
    rw [if_pos (hDlen.trans hfout.symm)]
    simp only [Option.map_some']
    rw [hDlen]
  refine ⟨_, heq, ?_, ?_, ?_, ?_⟩
  · rw [List.length_append, List.length_take, List.length_zipWith, hDlen, hfout,
        Nat.min_self]
    omega
  · intro k hk
    have hkA : k < A.length - fl := by omega
    rw [List.getElem?_append_left (by rw [List.length_take]; omega),
        List.getElem?_take_of_lt hkA, hA,
        List.getElem?_append_left (by rw [hZlen]; exact hk),
        List.getElem?_zipWith', List.getElem?_take_of_lt hk]
    have hfk : (npLinspace 0 1 fl)[k]? = some ((npLinspace 0 1 fl).getD k 1) := by
      have hklen : k < (npLinspace 0 1 fl).length := by rw [hfin]; exact hk
      rw [List.getElem?_eq_getElem hklen]
      simp [List.getD_eq_getElem?_getD, List.getElem?_eq_getElem hklen]
    rw [hfk]
    cases hx : xs[k]? <;> simp
  · intro k hk1 hk2
    have hkA : k < A.length - fl := by omega
    rw [List.getElem?_append_left (by rw [List.length_take]; omega),
        List.getElem?_take_of_lt hkA, hAk k hk1]
  · intro k hk
    by_cases hkn : k < xs.length
    · have hkfl : fl ≤ k := by omega
      have htakelen : (A.take (A.length - fl)).length = xs.length - fl := by
        rw [List.length_take, hAlen]
        exact Nat.min_eq_left (by omega)
      rw [List.getElem?_append_right (by rw [htakelen]; omega), htakelen]
      rw [List.getElem?_zipWith', List.getElem?_drop]
      have hidx : A.length - fl + (k - (xs.length - fl)) = k := by omega
      rw [hidx, hAk k hkfl]
      have hk' : k - (xs.length - fl) < (npLinspace 1 0 fl).length := by
        rw [hfout]
        omega
      rw [List.getElem?_eq_getElem hk']
      have hgd : (npLinspace 1 0 fl).getD (k - (xs.length - fl)) 1 =
          (npLinspace 1 0 fl)[k - (xs.length - fl)] := by
        simp [List.getD_eq_getElem?_getD, List.getElem?_eq_getElem hk']
      rw [hgd]
      cases hx : xs[k]? <;> simp
    · have hys : xs[k]? = none := List.getElem?_eq_none (by omega)
      have hlenY :
          (A.take (A.length - fl) ++
            List.zipWith mulOp (A.drop (A.length - fl)) (npLinspace 1 0 fl)).length =
            xs.length := by
        rw [List.length_append, List.length_take, List.length_zipWith, hDlen,
            hfout, Nat.min_self]
        omega
      rw [hys, List.getElem?_eq_none (by rw [hlenY]; omega)]
      simp

/-- C5, counterexample.  With `fade_duration = 0` (so `fadeLength = 0`)
and the two-sample buffer `[2, 3]`, the claimed precondition
`2 * fadeLength ≤ length` holds and the claim demands the buffer back
with no frame changed; the code instead raises: `audio[-0:]` selects the
*whole* buffer and the in-place multiplication by the empty fade-out ramp
is a broadcast `ValueError` (source line 80). -/
theorem apply_fade_zero_fadeLength_cex :
    2 * (pyTrunc ((0 : ℚ) * 1)).toNat ≤ 2 ∧
    apply_fade (Audio.mono [2, 3]) 1 0 = none := by decide

/-- C5 (amended): under the precondition `2 * fadeLength ≤ length`
*strengthened by* `1 ≤ fadeLength` (excluded by the counterexample above),
`apply_fade` multiplies the first `fadeLength` frames elementwise by the
fade-in ramp `np.linspace 0 1 fadeLength`, the last `fadeLength` frames by
the fade-out ramp `np.linspace 1 0 fadeLength`, and leaves every middle
frame unchanged; on a multi-channel buffer the same scalar ramp value is
applied to every channel of the frame. -/
theorem apply_fade_spec_amended (sr fd : ℚ) (fl : ℕ)
    (hfl : (pyTrunc (fd * sr)).toNat = fl) (h1 : 1 ≤ fl) :
    (∀ xs : List ℚ, 2 * fl ≤ xs.length →
      ∃ ys : List ℚ, apply_fade (Audio.mono xs) sr fd = some (Audio.mono ys) ∧
        ys.length = xs.length ∧
        (∀ k, k < fl →
          ys[k]? = (xs[k]?).map fun x => (npLinspace 0 1 fl).getD k 1 * x) ∧
        (∀ k, fl ≤ k → k < xs.length - fl → ys[k]? = xs[k]?) ∧
        (∀ k, xs.length - fl ≤ k →
          ys[k]? = (xs[k]?).map fun x =>
            (npLinspace 1 0 fl).getD (k - (xs.length - fl)) 1 * x)) ∧
    (∀ frames : List (List ℚ), 2 * fl ≤ frames.length →
      ∃ gs : List (List ℚ),
        apply_fade (Audio.multi frames) sr fd = some (Audio.multi gs) ∧
        gs.length = frames.length ∧
        (∀ k, k < fl →
          gs[k]? = (frames[k]?).map fun fr =>
            fr.map fun x => (npLinspace 0 1 fl).getD k 1 * x) ∧
        (∀ k, fl ≤ k → k < frames.length - fl → gs[k]? = frames[k]?) ∧
        (∀ k, frames.length - fl ≤ k →
          gs[k]? = (frames[k]?).map fun fr =>
            fr.map fun x =>
              (npLinspace 1 0 fl).getD (k - (frames.length - fl)) 1 * x)) := by
  constructor
  · intro xs h2
    obtain ⟨ys, hpipe, hlen, hr1, hr2, hr3⟩ :=
      fadePipeline_spec (fun x r => x * r) xs fl h1 h2
    refine ⟨ys, ?_, hlen, ?_, hr2, ?_⟩
    · show (apply_fade_mono xs ((pyTrunc (fd * sr)).toNat)).map Audio.mono = _
      rw [hfl, apply_fade_mono_eq_pipeline, hpipe, Option.map_some']
    · intro k hk
      rw [hr1 k hk]
      cases xs[k]? <;> simp [mul_comm]
    · intro k hk
      rw [hr3 k hk]
      cases xs[k]? <;> simp [mul_comm]
  · intro frames h2
    obtain ⟨gs, hpipe, hlen, hr1, hr2, hr3⟩ :=
      fadePipeline_spec (fun fr r => fr.map fun x => x * r) frames fl h1 h2
    refine ⟨gs, ?_, hlen, ?_, hr2, ?_⟩
    · show (apply_fade_multi frames ((pyTrunc (fd * sr)).toNat)).map Audio.multi = _
      rw [hfl, apply_fade_multi_eq_pipeline, hpipe, Option.map_some']
    · intro k hk
      rw [hr1 k hk]
      cases frames[k]? <;> simp [mul_comm]
    · intro k hk
      rw [hr3 k hk]
      cases frames[k]? <;> simp [mul_comm]

/-- C5, witness for the amended theorem: `sr = 12`, `fade_duration = 1/4`
(fade length `3`) on a six-frame mono buffer and a six-frame stereo
buffer. -/
theorem apply_fade_spec_amended_witness :
    (∃ ys : List ℚ,
      apply_fade (Audio.mono [1, 1, 1, 1, 1, 1]) 12 (1 / 4) =
        some (Audio.mono ys) ∧
      ys.length = 6 ∧
      (∀ k, k < 3 →
        ys[k]? = (([1, 1, 1, 1, 1, 1] : List ℚ)[k]?).map
          fun x => (npLinspace 0 1 3).getD k 1 * x) ∧
      (∀ k, 3 ≤ k → k < 3 → ys[k]? = ([1, 1, 1, 1, 1, 1] : List ℚ)[k]?) ∧
      (∀ k, 3 ≤ k →
        ys[k]? = (([1, 1, 1, 1, 1, 1] : List ℚ)[k]?).map
          fun x => (npLinspace 1 0 3).getD (k - 3) 1 * x)) ∧
    (∃ gs : List (List ℚ),
      apply_fade (Audio.multi [[1, 2], [1, 2], [1, 2], [1, 2], [1, 2], [1, 2]])
          12 (1 / 4) = some (Audio.multi gs) ∧
      gs.length = 6 ∧
      (∀ k, k < 3 →
        gs[k]? = (([[1, 2], [1, 2], [1, 2], [1, 2], [1, 2], [1, 2]] :
            List (List ℚ))[k]?).map
          fun fr => fr.map fun x => (npLinspace 0 1 3).getD k 1 * x) ∧
      (∀ k, 3 ≤ k → k < 3 →
        gs[k]? = ([[1, 2], [1, 2], [1, 2], [1, 2], [1, 2], [1, 2]] :
          List (List ℚ))[k]?) ∧
      (∀ k, 3 ≤ k →
        gs[k]? = (([[1, 2], [1, 2], [1, 2], [1, 2], [1, 2], [1, 2]] :
            List (List ℚ))[k]?).map
          fun fr => fr.map fun x => (npLinspace 1 0 3).getD (k - 3) 1 * x)) :=
  ⟨(apply_fade_spec_amended 12 (1 / 4) 3 (by decide) (by decide)).1
      [1, 1, 1, 1, 1, 1] (by decide),
   (apply_fade_spec_amended 12 (1 / 4) 3 (by decide) (by decide)).2
      [[1, 2], [1, 2], [1, 2], [1, 2], [1, 2], [1, 2]] (by decide)⟩

/-! ### Claim C6: idempotency of re-application -/

/-- C6, counterexample: `apply_fade` with `fade_duration = 0` does *not*
return a non-empty buffer unchanged — the zero-length fade-out ramp fails
to broadcast against the whole-buffer slice `a[-0:]`, so the call raises
(modelled `none`) rather than acting as the identity. -/
theorem apply_fade_zero_not_identity_cex :
    apply_fade (Audio.mono [1]) 1 0 ≠ some (Audio.mono [1]) := by decide

/-- C6 (amended): zero-duration fade is the identity only on the empty
buffer; on every non-empty buffer — mono (source lines 79–80) and
multi-channel (source lines 75–76) alike — it raises a broadcast error
(the `a[-0:]` slice covers the whole buffer while the ramp is empty), so
re-application with `fadeDuration = 0` is *not* a no-op on non-empty
input.  The four quantified clauses cover every buffer: a mono buffer is
`[]` or `x :: xs` and a multi-channel buffer is `[]` or `fr :: frames`.
Finally, re-applying one and the same nonzero fade twice is not
idempotent — on `[1, 1, 1, 1, 1, 1]` at `sr = 12`, `fade_duration = 1/4`,
the second application further attenuates the edges. -/
theorem apply_fade_idempotency_amended :
    (∀ sr : ℚ, apply_fade (Audio.mono []) sr 0 = some (Audio.mono [])) ∧
    (∀ (sr x : ℚ) (xs : List ℚ),
      apply_fade (Audio.mono (x :: xs)) sr 0 = none) ∧
    (∀ sr : ℚ, apply_fade (Audio.multi []) sr 0 = some (Audio.multi [])) ∧
    (∀ (sr : ℚ) (fr : List ℚ) (frames : List (List ℚ)),
      apply_fade (Audio.multi (fr :: frames)) sr 0 = none) ∧
    (apply_fade (Audio.mono [1, 1, 1, 1, 1, 1]) 12 (1 / 4)).bind
        (fun a => apply_fade a 12 (1 / 4)) ≠
      apply_fade (Audio.mono [1, 1, 1, 1, 1, 1]) 12 (1 / 4) := by
  refine ⟨?_, ?_, ?_, ?_, ?_⟩
  · intro sr
    show (apply_fade_mono [] ((pyTrunc (0 * sr)).toNat)).map Audio.mono = _
    rw [zero_mul]
    decide
  · intro sr x xs
    show (apply_fade_mono (x :: xs) ((pyTrunc (0 * sr)).toNat)).map Audio.mono = _
    rw [zero_mul]
    have h0 : (pyTrunc 0).toNat = 0 := by decide
    rw [h0]
    simp [apply_fade_mono, inplaceMulList, pyLastSlice, npLinspace]
  · intro sr
    show (apply_fade_multi [] ((pyTrunc (0 * sr)).toNat)).map Audio.multi = _
    rw [zero_mul]
    decide
  · intro sr fr frames
    show (apply_fade_multi (fr :: frames) ((pyTrunc (0 * sr)).toNat)).map
        Audio.multi = _
    rw [zero_mul]
    have h0 : (pyTrunc 0).toNat = 0 := by decide
    rw [h0]
    simp [apply_fade_multi, inplaceMulFrames, pyLastSlice, npLinspace]
  · decide

/-! ### Claim C9: batch robustness -/

/-- C9 (confirmed): a file whose processing raises contributes exactly one
failure message keyed by its name, and every other matching file — in
particular every *subsequent* one — is processed exactly as it would be in
its absence; no exception aborts the batch. -/
theorem process_folder_no_abort (pre post : List WavFolderEntry)
    (f : WavFolderEntry) (hwav : isWavName f.name = true)
    (hfail : tryProcessFile f = none) :
    process_folder (pre ++ f :: post) =
      process_folder pre ++ BatchMsg.failure f.name :: process_folder post := by
  unfold process_folder
  rw [List.filterMap_append, List.filterMap_cons]
  simp [hwav, hfail]

/-- C9, witness: a directory of three `.wav` files where the second fails
to decode; the batch log is the success message for file 1, one failure
message naming file 2, and the success message for file 3. -/
theorem process_folder_no_abort_witness :
    process_folder
        [⟨"one.wav", some (Audio.mono [1, 1, 1, 1], 4)⟩,
         ⟨"two.wav", none⟩,
         ⟨"three.wav", some (Audio.mono [1, 1, 1, 1], 4)⟩] =
      process_folder [⟨"one.wav", some (Audio.mono [1, 1, 1, 1], 4)⟩] ++
        BatchMsg.failure "two.wav" ::
          process_folder [⟨"three.wav", some (Audio.mono [1, 1, 1, 1], 4)⟩] :=
  process_folder_no_abort
    [⟨"one.wav", some (Audio.mono [1, 1, 1, 1], 4)⟩]
    [⟨"three.wav", some (Audio.mono [1, 1, 1, 1], 4)⟩]
    ⟨"two.wav", none⟩ (by decide) rfl

end WavTrim
